import Mathlib

/-!
Shallow embedding of `src/scripts/sprint_close.py` (SprintScripts).

The script exposes four functions:
* `get_duplicate_name` — derives the next duplicate display name from a
  task name, using the regex `^\[[0-9]{0,2}\]` and Python `int` on the
  captured digit group (which raises `ValueError` on an empty group).
  Failure is modelled as `none`.
* `generate_memberships` — rebuilds the memberships payload, redirecting
  the sprint-board placement to the backlog section.
* `generate_custom_fields` — reconciles the custom-field payload; the
  `assert False` branch on an unknown field kind is modelled as `none`.
* `duplicate_tasks` / `complete_tasks` — the orchestrator; remote calls
  are modelled as a trace of events tagged with the identity of the
  client object that carries them (the Python source sends the delete
  through the module-global `client`, not the injected `asana_client`
  parameter, so the two identities are kept distinct).
-/

namespace SprintClose

/-- One placement of a task on one board: the Python membership dict
`\x7b"project": ..., "section": ...\x7d`, flattened to the two gid strings
the script reads and writes. -/
structure Membership where
  project : String
  section' : String
deriving DecidableEq, Repr

/-- One entry of `task["custom_fields"]` as the script reads it: the field
gid, the `"type"` tag (an arbitrary string: the script only understands
`"enum"`, `"text"`, `"number"`), and the three value slots, each nullable.
`enum_value` holds the gid of the chosen option when present. -/
structure CustomField where
  gid : String
  type : String
  enum_value : Option String
  text_value : Option String
  number_value : Option Int
deriving DecidableEq, Repr

/-- A value stored in the `custom_fields` payload dict: the script puts
strings (enum option gids, text values), numbers, and `None` (a null
text or number value is copied as-is). -/
inductive FieldValue where
  | str : String → FieldValue
  | num : Int → FieldValue
  | null : FieldValue
deriving DecidableEq, Repr

/-- A Python dict with string keys, as an insertion-ordered association
list with unique keys (assignment replaces in place, else appends). -/
abbrev FieldDict := List (String × FieldValue)

/-- Python dict assignment `d[k] = v`: replace the value of `k` in place
if the key is present, otherwise append the pair at the end. -/
def dictInsert (d : FieldDict) (k : String) (v : FieldValue) : FieldDict :=
  match d with
  | [] => [(k, v)]
  | (k', v') :: rest => if k' = k then (k, v) :: rest else (k', v') :: dictInsert rest k v

/-- Python dict read `d.get(k)`: the value stored at `k`, if any. -/
def dictLookup (d : FieldDict) (k : String) : Option FieldValue :=
  match d with
  | [] => none
  | (k', v) :: rest => if k' = k then some v else dictLookup rest k

/-! ### Name versioner: `get_duplicate_name` (lines 12-27)

`DUPLICATED_TASK_PREFIX = re.compile(r"^\[(?P<number>[0-9]{0,2})\]")`.
Since `[0-9]` and `]` are disjoint character classes, the greedy match is
deterministic: after `[`, read up to two digits, then require `]`. -/

/-- Match `[0-9]{0,2}\]` at the head of `l`, allowing at most `k` more
digits; returns the captured digit group. -/
def bdAux : List Char → Nat → Option (List Char)
  | [], _ => none
  | c :: rest, k =>
    if c = ']' then some []
    else if c.isDigit then
      match k with
      | 0 => none
      | k' + 1 => (bdAux rest k').map (fun ds => c :: ds)
    else none

/-- `DUPLICATED_TASK_PREFIX.match(name)`: `some group` when the regex
`^\[[0-9]{0,2}\]` matches with digit group `group`, else `none`. -/
def bracketDigits : List Char → Option (List Char)
  | [] => none
  | c :: rest => if c = '[' then bdAux rest 2 else none

/-- Python `int` on a nonempty string of ASCII digits. -/
def digitsVal (ds : List Char) : Nat :=
  ds.foldl (fun acc c => 10 * acc + (c.toNat - '0'.toNat)) 0

/-- `get_duplicate_name(name)`.  No regex match: return `"[1] " + name`.
A match with a nonempty digit group `g`: return
`"[" + str(int(g)+1) + "] " + name[4:]`.  A match with an empty digit
group (a name starting `"[]"`): Python `int("")` raises `ValueError`,
modelled as `none`. -/
def get_duplicate_name (name : String) : Option String :=
  match bracketDigits name.data with
  | none => some ("[1] " ++ name)
  | some [] => none
  | some ds => some ("[" ++ toString (digitsVal ds + 1) ++ "] " ++ String.mk (name.data.drop 4))

example : get_duplicate_name "Hello" = some "[1] Hello" := by decide
example : get_duplicate_name "[2] World" = some "[3] World" := by decide
example : get_duplicate_name "[2]World" = some "[3] orld" := by decide
example : get_duplicate_name "[] x" = none := by decide
example : get_duplicate_name "[12] Long" = some "[13]  Long" := by decide
example : get_duplicate_name "[99] a" = some "[100]  a" := by decide
example : get_duplicate_name "[123] a" = some "[1] [123] a" := by decide

/-! ### Membership rebuilder: `generate_memberships` (lines 30-54) -/

/-- `generate_memberships(task, sprints_project_gid, backlog_gid)`, taking
`task["memberships"]` directly.  A membership on the sprint project is
re-emitted as `(sprints_project_gid, backlog_gid)`; any other membership
is re-emitted with its own project and section gids. -/
def generate_memberships (memberships : List Membership) (sprints_project_gid backlog_gid : String) :
    List Membership :=
  match memberships with
  | [] => []
  | m :: rest =>
    (if m.project = sprints_project_gid then ⟨sprints_project_gid, backlog_gid⟩
     else ⟨m.project, m.section'⟩) :: generate_memberships rest sprints_project_gid backlog_gid

example :
    generate_memberships [⟨"sprintProj", "sectionOld"⟩, ⟨"otherProj", "otherSection"⟩] "sprintProj" "BL"
      = [⟨"sprintProj", "BL"⟩, ⟨"otherProj", "otherSection"⟩] := by decide

/-! ### Custom-field reconciler: `generate_custom_fields` (lines 57-102) -/

/-- The loop body of `generate_custom_fields` (lines 78-99), threading the
`expected` and `actual` accumulators and the output dict; `none` models
the `assert False` on an unknown field kind. -/
def gcfLoop (raw : List CustomField)
    (expected_field_gid actual_field_gid sprint_number_field_gid : String)
    (expected actual : Int) (acc : FieldDict) : Option (Int × Int × FieldDict) :=
  match raw with
  | [] => some (expected, actual, acc)
  | cf :: rest =>
    if cf.gid = expected_field_gid then
      match cf.number_value with
      | none => gcfLoop rest expected_field_gid actual_field_gid sprint_number_field_gid expected actual acc
      | some v => gcfLoop rest expected_field_gid actual_field_gid sprint_number_field_gid v actual acc
    else if cf.gid = actual_field_gid then
      match cf.number_value with
      | none => gcfLoop rest expected_field_gid actual_field_gid sprint_number_field_gid expected actual acc
      | some v => gcfLoop rest expected_field_gid actual_field_gid sprint_number_field_gid expected v acc
    else if cf.gid = sprint_number_field_gid then
      gcfLoop rest expected_field_gid actual_field_gid sprint_number_field_gid expected actual acc
    else if cf.type = "enum" then
      match cf.enum_value with
      | none => gcfLoop rest expected_field_gid actual_field_gid sprint_number_field_gid expected actual acc
      | some g =>
        gcfLoop rest expected_field_gid actual_field_gid sprint_number_field_gid expected actual
          (dictInsert acc cf.gid (FieldValue.str g))
    else if cf.type = "text" then
      gcfLoop rest expected_field_gid actual_field_gid sprint_number_field_gid expected actual
        (dictInsert acc cf.gid (match cf.text_value with | none => FieldValue.null | some t => FieldValue.str t))
    else if cf.type = "number" then
      gcfLoop rest expected_field_gid actual_field_gid sprint_number_field_gid expected actual
        (dictInsert acc cf.gid (match cf.number_value with | none => FieldValue.null | some v => FieldValue.num v))
    else none

/-- `generate_custom_fields(task, ...)`, taking `task["custom_fields"]`
directly.  After the loop, line 101 always assigns
`custom_fields[expected_field_gid] = expected - actual if actual < expected else 0`. -/
def generate_custom_fields (raw : List CustomField)
    (expected_field_gid actual_field_gid sprint_number_field_gid : String) :
    Option FieldDict :=
  match gcfLoop raw expected_field_gid actual_field_gid sprint_number_field_gid 0 0 [] with
  | none => none
  | some (expected, actual, acc) =>
    some (dictInsert acc expected_field_gid
      (FieldValue.num (if actual < expected then expected - actual else 0)))

/-- Reference reading of the accumulators, from the spec's words: the
last non-null `number_value` of an input field whose gid is `g`,
starting from default `dflt`. -/
def lastNumberValue (raw : List CustomField) (g : String) (dflt : Int) : Int :=
  match raw with
  | [] => dflt
  | cf :: rest =>
    if cf.gid = g then
      match cf.number_value with
      | none => lastNumberValue rest g dflt
      | some v => lastNumberValue rest g v
    else lastNumberValue rest g dflt

example :
    generate_custom_fields
      [⟨"E", "number", none, none, some 5⟩, ⟨"A", "number", none, none, some 2⟩,
       ⟨"S", "number", none, none, some 7⟩, ⟨"X", "enum", some "opt1", none, none⟩]
      "E" "A" "S" = some [("X", FieldValue.str "opt1"), ("E", FieldValue.num 3)] := by decide

example :
    generate_custom_fields
      [⟨"E", "number", none, none, none⟩, ⟨"A", "number", none, none, some 2⟩,
       ⟨"X", "enum", some "opt1", none, none⟩]
      "E" "A" "S" = some [("X", FieldValue.str "opt1"), ("E", FieldValue.num 0)] := by decide

example :
    generate_custom_fields [⟨"F", "weird", none, none, none⟩] "E" "A" "S" = none := by decide

/-! ### Orchestrator: `duplicate_tasks` (lines 105-166) and
`complete_tasks` (lines 169-182)

Remote calls are modelled as a trace of `ApiEvent`s.  Each event records
the identity of the client object that carries it: `duplicate_tasks`
submits the create through its `asana_client` parameter (line 165) but
the delete through the module-global `client` (line 166). -/

/-- A task snapshot as returned by the remote listing, with the fields
the script projects (`name`, `custom_fields`, membership gids,
`assignee`), plus the stored completion flag. -/
structure RemoteTask where
  gid : String
  name : String
  assignee : Option String
  memberships : List Membership
  custom_fields : List CustomField
  completed : Bool
deriving DecidableEq, Repr

/-- The payload assembled at lines 158-163 for the create call: new name,
same assignee, rebuilt memberships, reconciled custom fields. -/
structure DuplicationSpec where
  name : String
  assignee : Option String
  memberships : List Membership
  custom_fields : FieldDict
deriving DecidableEq, Repr

/-- A partial update payload for `update_task`: only the fields present
(`some`) are touched by the remote service. -/
structure UpdatePayload where
  name : Option String
  assignee : Option (Option String)
  memberships : Option (List Membership)
  completed : Option Bool
deriving DecidableEq, Repr

/-- One remote mutation request, tagged with the identity of the client
object that submits it. -/
inductive ApiEvent where
  | create (clientId workspace_gid : String) (spec : DuplicationSpec)
  | delete (clientId task_gid : String)
  | update (clientId task_gid : String) (payload : UpdatePayload)
deriving DecidableEq, Repr

/-- `duplicate_tasks` over the listed tasks: per task, compute the new
name, memberships and custom fields, submit the create through the
injected `asana_client`, then the delete through the module-global
`client` (line 166 names the global, not the parameter).  Returns the
trace of submitted events and whether the loop ran to completion; a
`ValueError` from the name or the `assert False` from the reconciler
aborts before that task's create. -/
def duplicate_tasks (asana_client_id global_client_id : String)
    (workspace_gid sprints_project_gid backlog_gid : String)
    (expected_field_gid actual_field_gid sprint_number_field_gid : String)
    (tasks : List RemoteTask) : List ApiEvent × Bool :=
  match tasks with
  | [] => ([], true)
  | t :: rest =>
    match get_duplicate_name t.name with
    | none => ([], false)
    | some task_name =>
      match generate_custom_fields t.custom_fields expected_field_gid actual_field_gid sprint_number_field_gid with
      | none => ([], false)
      | some task_custom_fields =>
        let spec : DuplicationSpec :=
          ⟨task_name, t.assignee,
            generate_memberships t.memberships sprints_project_gid backlog_gid,
            task_custom_fields⟩
        let tail := duplicate_tasks asana_client_id global_client_id workspace_gid
          sprints_project_gid backlog_gid expected_field_gid actual_field_gid
          sprint_number_field_gid rest
        (ApiEvent.create asana_client_id workspace_gid spec
          :: ApiEvent.delete global_client_id t.gid :: tail.1, tail.2)

/-- The payload `\x7b"completed": True\x7d` built at line 182. -/
def completedPayload : UpdatePayload := ⟨none, none, none, some true⟩

/-- `complete_tasks` over the listed tasks: one `update_task` request per
task, through the injected client, with payload `completedPayload`. -/
def complete_tasks (asana_client_id : String) (tasks : List RemoteTask) : List ApiEvent :=
  tasks.map (fun t => ApiEvent.update asana_client_id t.gid completedPayload)

/-- Remote semantics of a partial update: fields present in the payload
are overwritten, everything else — the gid and custom fields included —
is kept. -/
def apply_update (t : RemoteTask) (p : UpdatePayload) : RemoteTask :=
  ⟨t.gid, p.name.getD t.name, p.assignee.getD t.assignee,
    p.memberships.getD t.memberships, t.custom_fields, p.completed.getD t.completed⟩

/-! ### Correctness of the regex embedding -/

/-- Spec-side reading of "begins with a bracketed integer group of 0-2
ASCII digits": the character list decomposes as `[`, a digit group `ds`
with `|ds| ≤ 2`, `]`, then anything. -/
def IsBracketNumbered (l : List Char) : Prop :=
  ∃ ds rest, l = '[' :: (ds ++ ']' :: rest) ∧ (∀ c ∈ ds, c.isDigit = true) ∧ ds.length ≤ 2

theorem bdAux_eq_some_iff : ∀ (l : List Char) (k : Nat) (ds : List Char),
    bdAux l k = some ds ↔
      ∃ rest, l = ds ++ ']' :: rest ∧ (∀ c ∈ ds, c.isDigit = true) ∧ ds.length ≤ k := by
  intro l
  induction l with
  | nil =>
    intro k ds
    constructor
    · intro h
      simp [bdAux] at h
    · rintro ⟨rest, h, -, -⟩
      simp at h
  | cons c restl ih =>
    intro k ds
    by_cases hc : c = ']'
    · subst hc
      have hred : bdAux (']' :: restl) k = some [] := by simp [bdAux]
      rw [hred]
      constructor
      · intro h
        obtain rfl : ([] : List Char) = ds := Option.some.inj h
        refine ⟨restl, rfl, ?_, Nat.zero_le _⟩
        intro c hmem
        cases hmem
      · rintro ⟨rest, h, hdig, -⟩
        cases ds with
        | nil => rfl
        | cons d ds' =>
          obtain ⟨hd, -⟩ := List.cons.inj h
          have := hdig d (by simp)
          rw [← hd] at this
          simp [Char.isDigit] at this
    · by_cases hdig : c.isDigit
      · cases k with
        | zero =>
          simp only [bdAux, if_neg hc, if_pos hdig]
          constructor
          · intro h; cases h
          · rintro ⟨rest, h, -, hlen⟩
            obtain rfl : ds = [] := List.length_eq_zero.1 (Nat.le_zero.1 hlen)
            obtain ⟨hd, -⟩ := List.cons.inj h
            exact absurd hd hc
        | succ k' =>
          simp only [bdAux, if_neg hc, if_pos hdig, Option.map_eq_some']
          constructor
          · rintro ⟨ds', hds', rfl⟩
            obtain ⟨rest, rfl, hdig', hlen⟩ := (ih k' ds').1 hds'
            refine ⟨rest, rfl, ?_, by simpa using hlen⟩
            intro a ha
            rcases List.mem_cons.1 ha with rfl | ha
            · exact hdig
            · exact hdig' a ha
          · rintro ⟨rest, h, hdigs, hlen⟩
            cases ds with
            | nil =>
              obtain ⟨hd, -⟩ := List.cons.inj h
              exact absurd hd hc
            | cons d ds' =>
              obtain ⟨rfl, htail⟩ := List.cons.inj h
              refine ⟨ds', (ih k' ds').2 ⟨rest, htail, ?_, by simpa using hlen⟩, rfl⟩
              intro a ha
              exact hdigs a (List.mem_cons_of_mem _ ha)
      · simp only [bdAux, if_neg hc, if_neg hdig]
        constructor
        · intro h; cases h
        · rintro ⟨rest, h, hdigs, -⟩
          cases ds with
          | nil =>
            obtain ⟨hd, -⟩ := List.cons.inj h
            exact absurd hd hc
          | cons d ds' =>
            obtain ⟨rfl, -⟩ := List.cons.inj h
            exact absurd (hdigs c (by simp)) hdig

theorem bracketDigits_eq_some_iff (l : List Char) (ds : List Char) :
    bracketDigits l = some ds ↔
      ∃ rest, l = '[' :: (ds ++ ']' :: rest) ∧ (∀ c ∈ ds, c.isDigit = true) ∧ ds.length ≤ 2 := by
  cases l with
  | nil =>
    constructor
    · intro h; cases h
    · rintro ⟨rest, h, -, -⟩; cases h
  | cons c restl =>
    by_cases hc : c = '['
    · subst hc
      have hred : bracketDigits ('[' :: restl) = bdAux restl 2 := by simp [bracketDigits]
      rw [hred, bdAux_eq_some_iff]
      constructor
      · rintro ⟨rest, rfl, hd, hl⟩
        exact ⟨rest, rfl, hd, hl⟩
      · rintro ⟨rest, h, hd, hl⟩
        obtain ⟨-, rfl⟩ := List.cons.inj h
        exact ⟨rest, rfl, hd, hl⟩
    · simp only [bracketDigits, if_neg hc]
      constructor
      · intro h; cases h
      · rintro ⟨rest, h, -, -⟩
        obtain ⟨hd, -⟩ := List.cons.inj h
        exact absurd hd hc

theorem bracketDigits_eq_none_iff (l : List Char) :
    bracketDigits l = none ↔ ¬ IsBracketNumbered l := by
  constructor
  · rintro h ⟨ds, rest, hdecomp, hd, hl⟩
    have hsome := (bracketDigits_eq_some_iff l ds).2 ⟨rest, hdecomp, hd, hl⟩
    rw [h] at hsome
    cases hsome
  · intro h
    cases hb : bracketDigits l with
    | none => rfl
    | some ds =>
      obtain ⟨rest, hdecomp, hd, hl⟩ := (bracketDigits_eq_some_iff l ds).1 hb
      exact absurd ⟨ds, rest, hdecomp, hd, hl⟩ h

/-! ### Claims C1, C2, C9: the name versioner -/

/-- C1 (counterexample): the regex `^\[[0-9]{0,2}\]` does not require a
space after the closing bracket.  `"[2]World"` does not begin with a
bracketed prefix followed by a space (its fourth character is `W`), so
the claim predicts `"[1] [2]World"`; the code matches the prefix anyway
and returns `"[3] orld"`. -/
theorem C1_next_duplicate_name_cex :
    "[2]World".data = ['[', '2', ']', 'W', 'o', 'r', 'l', 'd'] ∧
    get_duplicate_name "[2]World" = some "[3] orld" ∧
    get_duplicate_name "[2]World" ≠ some ("[1] " ++ "[2]World") := by
  refine ⟨rfl, rfl, ?_⟩
  decide

/-- C1 (amended): if `name` does not begin with `[`, 0-2 ASCII digits,
`]` (no space required), `get_duplicate_name` returns `"[1] " + name`;
if it does and the digit group is nonempty with value `n`, it returns
`"[" + (n+1) + "] "` followed by the name with its first 4 characters
removed; if the digit group is empty (`"[]..."`), Python `int("")`
raises `ValueError` instead of returning. -/
theorem C1_next_duplicate_name (name : String) :
    (¬ IsBracketNumbered name.data → get_duplicate_name name = some ("[1] " ++ name)) ∧
    (∀ ds rest, name.data = '[' :: (ds ++ ']' :: rest) → (∀ c ∈ ds, c.isDigit = true) →
      ds.length ≤ 2 → ds ≠ [] →
      get_duplicate_name name
        = some ("[" ++ toString (digitsVal ds + 1) ++ "] " ++ String.mk (name.data.drop 4))) ∧
    (∀ rest, name.data = '[' :: ']' :: rest → get_duplicate_name name = none) := by
  refine ⟨?_, ?_, ?_⟩
  · intro h
    have hb : bracketDigits name.data = none := (bracketDigits_eq_none_iff _).2 h
    simp [get_duplicate_name, hb]
  · intro ds rest hdecomp hdig hlen hne
    have hb : bracketDigits name.data = some ds :=
      (bracketDigits_eq_some_iff _ _).2 ⟨rest, hdecomp, hdig, hlen⟩
    cases ds with
    | nil => exact absurd rfl hne
    | cons d ds' => simp [get_duplicate_name, hb]
  · intro rest hdecomp
    have hb : bracketDigits name.data = some [] :=
      (bracketDigits_eq_some_iff _ _).2
        ⟨rest, by simpa using hdecomp, ⟨fun c hmem => absurd hmem (List.not_mem_nil c), by simp⟩⟩
    simp [get_duplicate_name, hb]

/-- C1 (witness): the amended theorem applied at `"[2] World"`,
reproducing the documented example `"[2] World" -> "[3] World"`. -/
theorem C1_next_duplicate_name_witness :
    get_duplicate_name "[2] World" = some "[3] World" := by
  have h := (C1_next_duplicate_name "[2] World").2.1 ['2'] (' ' :: "World".data)
    (by decide) (by decide) (by decide) (by decide)
  exact h

/-- C2 (counterexample): the claim says the function is total over all
strings, naming `"[] x"` in particular; on `"[] x"` the regex matches
with an empty digit group and `int("")` raises `ValueError` (modelled as
`none`), so the function does fail there. -/
theorem C2_total_cex : get_duplicate_name "[] x" = none := by decide

/-- C2 (amended): `get_duplicate_name` returns a string for every input
except exactly the strings that begin with `"[]"` (empty bracketed
group), on which Python `int("")` raises `ValueError`. -/
theorem C2_totality (name : String) :
    (get_duplicate_name name).isSome = true ↔ ¬ ∃ rest, name.data = '[' :: ']' :: rest := by
  cases hb : bracketDigits name.data with
  | none =>
    have hgd : get_duplicate_name name = some ("[1] " ++ name) := by
      simp [get_duplicate_name, hb]
    refine ⟨fun _ => ?_, fun _ => by simp [hgd]⟩
    rintro ⟨rest, hdecomp⟩
    have h2 := (bracketDigits_eq_some_iff name.data []).2
      ⟨rest, by simpa using hdecomp, ⟨fun c hmem => absurd hmem (List.not_mem_nil c), by simp⟩⟩
    rw [hb] at h2
    cases h2
  | some ds =>
    cases ds with
    | nil =>
      have hgd : get_duplicate_name name = none := by
        simp [get_duplicate_name, hb]
      obtain ⟨rest, hdecomp, -, -⟩ := (bracketDigits_eq_some_iff name.data []).1 hb
      constructor
      · intro hcontra
        rw [hgd] at hcontra
        simp at hcontra
      · intro hno
        exact absurd ⟨rest, by simpa using hdecomp⟩ hno
    | cons d ds' =>
      have hgd : (get_duplicate_name name).isSome = true := by
        simp [get_duplicate_name, hb]
      refine ⟨fun _ => ?_, fun _ => hgd⟩
      rintro ⟨rest, hdecomp⟩
      have h2 := (bracketDigits_eq_some_iff name.data []).2
        ⟨rest, by simpa using hdecomp, ⟨fun c hmem => absurd hmem (List.not_mem_nil c), by simp⟩⟩
      rw [hb] at h2
      simp at h2

/-- C2 (witness): the amended theorem applied at `"Hello"`: the function
succeeds there, hence `"Hello"` does not begin with `"[]"`. -/
theorem C2_totality_witness : ¬ ∃ rest, "Hello".data = '[' :: ']' :: rest :=
  (C2_totality "Hello").1 (by decide)

/-- C9: for any name `x` that does not begin with a bracketed integer
group, one application yields `"[1] " ++ x` and a second application
yields `"[2] " ++ x`: the bracket number goes from none to 1 to 2 and
the rest of the name is intact. -/
theorem C9_twice (x : String) (h : ¬ IsBracketNumbered x.data) :
    get_duplicate_name x = some ("[1] " ++ x) ∧
    get_duplicate_name ("[1] " ++ x) = some ("[2] " ++ x) := by
  have hb : bracketDigits x.data = none := (bracketDigits_eq_none_iff _).2 h
  refine ⟨by simp [get_duplicate_name, hb], ?_⟩
  rfl

/-- C9 (witness): both applications at `x = "Hello"`. -/
theorem C9_twice_witness :
    get_duplicate_name "Hello" = some "[1] Hello" ∧
    get_duplicate_name "[1] Hello" = some "[2] Hello" := by
  refine C9_twice "Hello" ?_
  rintro ⟨ds, rest, hdecomp, -, -⟩
  exact absurd (List.cons.inj hdecomp).1 (by decide)

/-! ### Claim C5: the membership rebuilder -/

/-- C5: `generate_memberships` preserves length and order; the entry at
every position is the input entry, with a sprint-board entry replaced by
`(sprintProjectId, backlogSectionId)` and any other entry unchanged; the
empty list yields the empty list. -/
theorem C5_generate_memberships (ms : List Membership) (sp bl : String) :
    (generate_memberships ms sp bl).length = ms.length ∧
    (∀ i, (generate_memberships ms sp bl).get? i
        = (ms.get? i).map (fun m => if m.project = sp then ⟨sp, bl⟩ else m)) ∧
    generate_memberships [] sp bl = [] := by
  refine ⟨?_, ?_, rfl⟩
  · induction ms with
    | nil => rfl
    | cons m rest ih => simp [generate_memberships, ih]
  · induction ms with
    | nil => intro i; simp [generate_memberships]
    | cons m rest ih =>
      intro i
      cases i with
      | zero =>
        obtain ⟨p, s⟩ := m
        by_cases h : p = sp <;> simp [generate_memberships, h]
      | succ n => simpa [generate_memberships] using ih n

/-! ### Dict lemmas for the reconciler -/

theorem dictLookup_dictInsert_self (d : FieldDict) (k : String) (v : FieldValue) :
    dictLookup (dictInsert d k v) k = some v := by
  induction d with
  | nil => simp [dictInsert, dictLookup]
  | cons p rest ih =>
    obtain ⟨k', v'⟩ := p
    by_cases h : k' = k
    · subst h
      simp [dictInsert, dictLookup]
    · simp [dictInsert, dictLookup, h, ih]

theorem dictLookup_dictInsert_ne (d : FieldDict) (k k' : String) (v : FieldValue)
    (h : k' ≠ k) :
    dictLookup (dictInsert d k v) k' = dictLookup d k' := by
  induction d with
  | nil => simp [dictInsert, dictLookup, Ne.symm h]
  | cons p rest ih =>
    obtain ⟨a, b⟩ := p
    by_cases ha : a = k
    · subst ha
      simp [dictInsert, dictLookup, Ne.symm h]
    · simp [dictInsert, dictLookup, ha, ih]

/-! ### Loop invariants of the reconciler -/

/-- Keys equal to one of the three configured field gids are never
inserted by the loop: the first three branches catch them before any
insertion happens. -/
theorem gcfLoop_lookup_config (e a s k : String) (hk : k = e ∨ k = a ∨ k = s) :
    ∀ (raw : List CustomField) (exp act : Int) (acc : FieldDict) (res : Int × Int × FieldDict),
      gcfLoop raw e a s exp act acc = some res →
      dictLookup res.2.2 k = dictLookup acc k := by
  intro raw
  induction raw with
  | nil =>
    intro exp act acc res h
    obtain rfl := Option.some.inj h
    rfl
  | cons cf rest ih =>
    intro exp act acc res h
    simp only [gcfLoop] at h
    by_cases g1 : cf.gid = e
    · rw [if_pos g1] at h
      cases hnv : cf.number_value with
      | none => rw [hnv] at h; exact ih exp act acc res h
      | some v => rw [hnv] at h; exact ih v act acc res h
    · rw [if_neg g1] at h
      by_cases g2 : cf.gid = a
      · rw [if_pos g2] at h
        cases hnv : cf.number_value with
        | none => rw [hnv] at h; exact ih exp act acc res h
        | some v => rw [hnv] at h; exact ih exp v acc res h
      · rw [if_neg g2] at h
        by_cases g3 : cf.gid = s
        · rw [if_pos g3] at h
          exact ih exp act acc res h
        · rw [if_neg g3] at h
          have hgk : k ≠ cf.gid := by
            rcases hk with rfl | rfl | rfl
            · exact Ne.symm g1
            · exact Ne.symm g2
            · exact Ne.symm g3
          by_cases t1 : cf.type = "enum"
          · rw [if_pos t1] at h
            cases hev : cf.enum_value with
            | none => rw [hev] at h; exact ih exp act acc res h
            | some g =>
              rw [hev] at h
              rw [ih exp act _ res h, dictLookup_dictInsert_ne acc cf.gid k _ hgk]
          · rw [if_neg t1] at h
            by_cases t2 : cf.type = "text"
            · rw [if_pos t2] at h
              rw [ih exp act _ res h, dictLookup_dictInsert_ne acc cf.gid k _ hgk]
            · rw [if_neg t2] at h
              by_cases t3 : cf.type = "number"
              · rw [if_pos t3] at h
                rw [ih exp act _ res h, dictLookup_dictInsert_ne acc cf.gid k _ hgk]
              · rw [if_neg t3] at h
                cases h

theorem lastNumberValue_cons_ne (cf : CustomField) (rest : List CustomField) (g : String)
    (dflt : Int) (h : cf.gid ≠ g) :
    lastNumberValue (cf :: rest) g dflt = lastNumberValue rest g dflt := by
  simp [lastNumberValue, h]

theorem lastNumberValue_cons_none (cf : CustomField) (rest : List CustomField) (g : String)
    (dflt : Int) (h : cf.gid = g) (hnv : cf.number_value = none) :
    lastNumberValue (cf :: rest) g dflt = lastNumberValue rest g dflt := by
  simp [lastNumberValue, h, hnv]

theorem lastNumberValue_cons_some (cf : CustomField) (rest : List CustomField) (g : String)
    (dflt v : Int) (h : cf.gid = g) (hnv : cf.number_value = some v) :
    lastNumberValue (cf :: rest) g dflt = lastNumberValue rest g v := by
  simp [lastNumberValue, h, hnv]

/-- The `expected` accumulator ends as the last non-null `number_value`
among fields whose gid is the expected gid, and `actual` likewise for
the actual gid, provided the two gids differ (the expected branch is
tested first). -/
theorem gcfLoop_accumulators (e a s : String) (hea : e ≠ a) :
    ∀ (raw : List CustomField) (exp act : Int) (acc : FieldDict) (res : Int × Int × FieldDict),
      gcfLoop raw e a s exp act acc = some res →
      res.1 = lastNumberValue raw e exp ∧ res.2.1 = lastNumberValue raw a act := by
  intro raw
  induction raw with
  | nil =>
    intro exp act acc res h
    obtain rfl := Option.some.inj h
    exact ⟨rfl, rfl⟩
  | cons cf rest ih =>
    intro exp act acc res h
    simp only [gcfLoop] at h
    by_cases g1 : cf.gid = e
    · have hga : cf.gid ≠ a := by rw [g1]; exact hea
      rw [if_pos g1] at h
      cases hnv : cf.number_value with
      | none =>
        rw [hnv] at h
        rw [lastNumberValue_cons_none cf rest e exp g1 hnv, lastNumberValue_cons_ne cf rest a act hga]
        exact ih exp act acc res h
      | some v =>
        rw [hnv] at h
        rw [lastNumberValue_cons_some cf rest e exp v g1 hnv, lastNumberValue_cons_ne cf rest a act hga]
        exact ih v act acc res h
    · rw [if_neg g1] at h
      rw [lastNumberValue_cons_ne cf rest e exp g1]
      by_cases g2 : cf.gid = a
      · rw [if_pos g2] at h
        cases hnv : cf.number_value with
        | none =>
          rw [hnv] at h
          rw [lastNumberValue_cons_none cf rest a act g2 hnv]
          exact ih exp act acc res h
        | some v =>
          rw [hnv] at h
          rw [lastNumberValue_cons_some cf rest a act v g2 hnv]
          exact ih exp v acc res h
      · rw [if_neg g2] at h
        rw [lastNumberValue_cons_ne cf rest a act g2]
        by_cases g3 : cf.gid = s
        · rw [if_pos g3] at h
          exact ih exp act acc res h
        · rw [if_neg g3] at h
          by_cases t1 : cf.type = "enum"
          · rw [if_pos t1] at h
            cases hev : cf.enum_value with
            | none => rw [hev] at h; exact ih exp act acc res h
            | some g => rw [hev] at h; exact ih exp act _ res h
          · rw [if_neg t1] at h
            by_cases t2 : cf.type = "text"
            · rw [if_pos t2] at h
              exact ih exp act _ res h
            · rw [if_neg t2] at h
              by_cases t3 : cf.type = "number"
              · rw [if_pos t3] at h
                exact ih exp act _ res h
              · rw [if_neg t3] at h
                cases h

/-- If some field escapes the three gid branches and has an unknown kind,
the loop hits `assert False` no matter what: it returns `none`. -/
theorem gcfLoop_unknown (e a s : String) (cf : CustomField)
    (h1 : cf.gid ≠ e) (h2 : cf.gid ≠ a) (h3 : cf.gid ≠ s)
    (h4 : cf.type ≠ "enum") (h5 : cf.type ≠ "text") (h6 : cf.type ≠ "number") :
    ∀ (raw : List CustomField), cf ∈ raw →
      ∀ (exp act : Int) (acc : FieldDict), gcfLoop raw e a s exp act acc = none := by
  intro raw
  induction raw with
  | nil =>
    intro hmem
    cases hmem
  | cons hd rest ih =>
    intro hmem exp act acc
    rcases List.mem_cons.1 hmem with rfl | hmem'
    · simp only [gcfLoop, if_neg h1, if_neg h2, if_neg h3, if_neg h4, if_neg h5, if_neg h6]
    · simp only [gcfLoop]
      by_cases g1 : hd.gid = e
      · rw [if_pos g1]
        cases hd.number_value <;> exact ih hmem' _ _ _
      · rw [if_neg g1]
        by_cases g2 : hd.gid = a
        · rw [if_pos g2]
          cases hd.number_value <;> exact ih hmem' _ _ _
        · rw [if_neg g2]
          by_cases g3 : hd.gid = s
          · rw [if_pos g3]
            exact ih hmem' _ _ _
          · rw [if_neg g3]
            by_cases t1 : hd.type = "enum"
            · rw [if_pos t1]
              cases hd.enum_value <;> exact ih hmem' _ _ _
            · rw [if_neg t1]
              by_cases t2 : hd.type = "text"
              · rw [if_pos t2]
                exact ih hmem' _ _ _
              · rw [if_neg t2]
                by_cases t3 : hd.type = "number"
                · rw [if_pos t3]
                  exact ih hmem' _ _ _
                · rw [if_neg t3]

/-- If every field either carries one of the three configured gids or a
known kind, the loop never hits `assert False`. -/
theorem gcfLoop_isSome (e a s : String) :
    ∀ (raw : List CustomField),
      (∀ cf ∈ raw, cf.gid = e ∨ cf.gid = a ∨ cf.gid = s ∨
        cf.type = "enum" ∨ cf.type = "text" ∨ cf.type = "number") →
      ∀ (exp act : Int) (acc : FieldDict), (gcfLoop raw e a s exp act acc).isSome = true := by
  intro raw
  induction raw with
  | nil =>
    intro _ exp act acc
    rfl
  | cons hd rest ih =>
    intro hall exp act acc
    have hhd := hall hd (List.mem_cons_self hd rest)
    have hrest := fun cf hc => hall cf (List.mem_cons_of_mem hd hc)
    simp only [gcfLoop]
    by_cases g1 : hd.gid = e
    · rw [if_pos g1]
      cases hd.number_value <;> exact ih hrest _ _ _
    · rw [if_neg g1]
      by_cases g2 : hd.gid = a
      · rw [if_pos g2]
        cases hd.number_value <;> exact ih hrest _ _ _
      · rw [if_neg g2]
        by_cases g3 : hd.gid = s
        · rw [if_pos g3]
          exact ih hrest _ _ _
        · rw [if_neg g3]
          by_cases t1 : hd.type = "enum"
          · rw [if_pos t1]
            cases hd.enum_value <;> exact ih hrest _ _ _
          · rw [if_neg t1]
            by_cases t2 : hd.type = "text"
            · rw [if_pos t2]
              exact ih hrest _ _ _
            · rw [if_neg t2]
              by_cases t3 : hd.type = "number"
              · rw [if_pos t3]
                exact ih hrest _ _ _
              · rcases hhd with g | g | g | g | g | g <;> contradiction

/-! ### Claims C3, C4, C7, C10: the custom-field reconciler -/

/-- C3 (counterexample): the claim quantifies over every custom-field
list with no assumption on the configured ids.  With
`expectedFieldId = actualFieldId = "F"` and a single field `F = 5`, the
claim's expected-seen and actual-seen are both 5, predicting
`max(5-5, 0) = 0`; the code tests the expected branch first, leaves
`actual = 0`, and outputs 5. -/
theorem C3_expected_value_cex :
    generate_custom_fields [⟨"F", "number", none, none, some 5⟩] "F" "F" "S"
      = some [("F", FieldValue.num 5)] ∧
    lastNumberValue [⟨"F", "number", none, none, some 5⟩] "F" 0 = 5 ∧
    FieldValue.num 5 ≠ FieldValue.num (max ((5 : Int) - 5) 0) := by
  refine ⟨rfl, rfl, ?_⟩
  decide

/-- C3 (amended): provided `expectedFieldId ≠ actualFieldId`, whenever
the reconciler returns a mapping it maps the expected gid to
`max(expected-seen - actual-seen, 0)`, where expected-seen (resp.
actual-seen) is the last non-null numeric value among fields with the
expected (resp. actual) gid, defaulting to 0; and the spec's scenario
(E=5, A=2, S=7, enum X=opt1) yields exactly the mapping
`X ↦ "opt1", E ↦ 3`. -/
theorem C3_expected_value (raw : List CustomField) (e a s : String) (d : FieldDict)
    (hea : e ≠ a) (h : generate_custom_fields raw e a s = some d) :
    dictLookup d e
      = some (FieldValue.num (max (lastNumberValue raw e 0 - lastNumberValue raw a 0) 0)) ∧
    generate_custom_fields
      [⟨"E", "number", none, none, some 5⟩, ⟨"A", "number", none, none, some 2⟩,
       ⟨"S", "number", none, none, some 7⟩, ⟨"X", "enum", some "opt1", none, none⟩]
      "E" "A" "S" = some [("X", FieldValue.str "opt1"), ("E", FieldValue.num 3)] := by
  refine ⟨?_, rfl⟩
  unfold generate_custom_fields at h
  cases hloop : gcfLoop raw e a s 0 0 [] with
  | none =>
    rw [hloop] at h
    cases h
  | some res =>
    rw [hloop] at h
    obtain ⟨exp, act, acc⟩ := res
    obtain rfl := Option.some.inj h
    obtain ⟨he, ha⟩ := gcfLoop_accumulators e a s hea raw 0 0 [] (exp, act, acc) hloop
    rw [dictLookup_dictInsert_self]
    have hmax : (if act < exp then exp - act else 0) = max (exp - act) 0 := by
      by_cases hlt : act < exp
      · rw [if_pos hlt, max_eq_left (by omega)]
      · rw [if_neg hlt, max_eq_right (by omega)]
    simp only [← he, ← ha, hmax]

/-- C3 (witness): the amended theorem applied at the spec's scenario. -/
theorem C3_expected_value_witness :
    dictLookup [("X", FieldValue.str "opt1"), ("E", FieldValue.num 3)] "E"
      = some (FieldValue.num (max
          (lastNumberValue
            [⟨"E", "number", none, none, some 5⟩, ⟨"A", "number", none, none, some 2⟩,
             ⟨"S", "number", none, none, some 7⟩, ⟨"X", "enum", some "opt1", none, none⟩] "E" 0
          - lastNumberValue
            [⟨"E", "number", none, none, some 5⟩, ⟨"A", "number", none, none, some 2⟩,
             ⟨"S", "number", none, none, some 7⟩, ⟨"X", "enum", some "opt1", none, none⟩] "A" 0) 0)) :=
  (C3_expected_value
    [⟨"E", "number", none, none, some 5⟩, ⟨"A", "number", none, none, some 2⟩,
     ⟨"S", "number", none, none, some 7⟩, ⟨"X", "enum", some "opt1", none, none⟩]
    "E" "A" "S" [("X", FieldValue.str "opt1"), ("E", FieldValue.num 3)]
    (by decide) rfl).1

/-- C4: with the three configured gids pairwise distinct, any returned
mapping never contains the sprint-number gid, always contains the
expected gid, and never contains the actual gid. -/
theorem C4_keys (raw : List CustomField) (e a s : String) (d : FieldDict)
    (hea : e ≠ a) (hes : e ≠ s) (_has : a ≠ s)
    (h : generate_custom_fields raw e a s = some d) :
    dictLookup d s = none ∧ (dictLookup d e).isSome = true ∧ dictLookup d a = none := by
  unfold generate_custom_fields at h
  cases hloop : gcfLoop raw e a s 0 0 [] with
  | none =>
    rw [hloop] at h
    cases h
  | some res =>
    rw [hloop] at h
    obtain ⟨exp, act, acc⟩ := res
    obtain rfl := Option.some.inj h
    have hs := gcfLoop_lookup_config e a s s (Or.inr (Or.inr rfl)) raw 0 0 [] (exp, act, acc) hloop
    have ha := gcfLoop_lookup_config e a s a (Or.inr (Or.inl rfl)) raw 0 0 [] (exp, act, acc) hloop
    refine ⟨?_, ?_, ?_⟩
    · rw [dictLookup_dictInsert_ne acc e s _ (Ne.symm hes)]
      exact hs
    · rw [dictLookup_dictInsert_self]
      rfl
    · rw [dictLookup_dictInsert_ne acc e a _ (Ne.symm hea)]
      exact ha

/-- C4 (witness): the theorem applied at the spec's scenario: `S` and
`A` are absent from the output, `E` is present. -/
theorem C4_keys_witness :
    dictLookup [("X", FieldValue.str "opt1"), ("E", FieldValue.num 3)] "S" = none ∧
    (dictLookup [("X", FieldValue.str "opt1"), ("E", FieldValue.num 3)] "E").isSome = true ∧
    dictLookup [("X", FieldValue.str "opt1"), ("E", FieldValue.num 3)] "A" = none :=
  C4_keys
    [⟨"E", "number", none, none, some 5⟩, ⟨"A", "number", none, none, some 2⟩,
     ⟨"S", "number", none, none, some 7⟩, ⟨"X", "enum", some "opt1", none, none⟩]
    "E" "A" "S" [("X", FieldValue.str "opt1"), ("E", FieldValue.num 3)]
    (by decide) (by decide) (by decide) rfl

/-- C7: a field whose gid differs from all three configured gids and
whose kind tag is outside `enum`/`text`/`number` makes the reconciler
hit `assert False` (modelled as `none`): no mapping is returned, the
violation is not swallowed. -/
theorem C7_unknown_kind (raw : List CustomField) (e a s : String) (cf : CustomField)
    (hmem : cf ∈ raw) (h1 : cf.gid ≠ e) (h2 : cf.gid ≠ a) (h3 : cf.gid ≠ s)
    (h4 : cf.type ≠ "enum") (h5 : cf.type ≠ "text") (h6 : cf.type ≠ "number") :
    generate_custom_fields raw e a s = none := by
  unfold generate_custom_fields
  rw [gcfLoop_unknown e a s cf h1 h2 h3 h4 h5 h6 raw hmem 0 0 []]

/-- C7 (witness): the theorem applied to a list holding a known-kind
field followed by a `"date"`-kind field. -/
theorem C7_unknown_kind_witness :
    generate_custom_fields
      [⟨"F", "text", none, some "hi", none⟩, ⟨"G", "date", none, none, none⟩]
      "E" "A" "S" = none :=
  C7_unknown_kind
    [⟨"F", "text", none, some "hi", none⟩, ⟨"G", "date", none, none, none⟩]
    "E" "A" "S" ⟨"G", "date", none, none, none⟩
    (by decide) (by decide) (by decide) (by decide) (by decide) (by decide) (by decide)

/-- C10: the gid dispatch precedes the kind dispatch: if every field
whose gid is none of the three configured gids has a known kind, the
reconciler returns a mapping — fields carrying a configured gid never
reach the kind dispatch, so they never trigger the unknown-kind
assertion, whatever their kind tag. -/
theorem C10_config_ids_bypass_kind (raw : List CustomField) (e a s : String)
    (hall : ∀ cf ∈ raw, cf.gid = e ∨ cf.gid = a ∨ cf.gid = s ∨
      cf.type = "enum" ∨ cf.type = "text" ∨ cf.type = "number") :
    (generate_custom_fields raw e a s).isSome = true := by
  unfold generate_custom_fields
  have hsome := gcfLoop_isSome e a s raw hall 0 0 []
  cases hloop : gcfLoop raw e a s 0 0 [] with
  | none =>
    rw [hloop] at hsome
    cases hsome
  | some res =>
    obtain ⟨exp, act, acc⟩ := res
    rfl

/-- C10 (witness): the theorem applied to a field with the expected gid
and the unknown kind tag `"weird"`: no assertion fires. -/
theorem C10_config_ids_bypass_kind_witness :
    (generate_custom_fields [⟨"E", "weird", none, none, some 5⟩] "E" "A" "S").isSome = true :=
  C10_config_ids_bypass_kind [⟨"E", "weird", none, none, some 5⟩] "E" "A" "S" (by decide)

/-! ### Claims C6, C8: the orchestrator -/

/-- C6 (code bug, evaluated): with the injected client distinct from the
module-global client, `duplicate_tasks` submits the create with the
transformed name, rebuilt memberships, reconciled custom fields and the
same assignee through the injected client, and strictly after it one
delete of the original id — but the delete goes through the module-global
`client` named at line 166, not the injected `asana_client`. -/
theorem C6_delete_uses_global_client :
    duplicate_tasks "asanaClient" "globalClient" "W" "P" "BL" "E" "A" "S"
      [⟨"task1", "Hello", some "user1", [⟨"P", "S1"⟩], [⟨"F", "text", none, some "hi", none⟩], false⟩]
      = ([ApiEvent.create "asanaClient" "W"
            ⟨"[1] Hello", some "user1", [⟨"P", "BL"⟩],
             [("F", FieldValue.str "hi"), ("E", FieldValue.num 0)]⟩,
          ApiEvent.delete "globalClient" "task1"], true) ∧
    "globalClient" ≠ "asanaClient" := by
  refine ⟨rfl, ?_⟩
  decide

/-- C8: `complete_tasks` submits exactly one update per listed task, in
order; its payload carries the completed flag set to true and nothing
else; applying such a partial update to a stored task flips only the
completed flag, leaving the gid and every other field unchanged. -/
theorem C8_complete_tasks (asana_client_id : String) (tasks : List RemoteTask) :
    (complete_tasks asana_client_id tasks).length = tasks.length ∧
    (∀ i, (complete_tasks asana_client_id tasks).get? i
        = (tasks.get? i).map (fun t => ApiEvent.update asana_client_id t.gid completedPayload)) ∧
    completedPayload.name = none ∧ completedPayload.assignee = none ∧
    completedPayload.memberships = none ∧ completedPayload.completed = some true ∧
    (∀ t : RemoteTask, apply_update t completedPayload
        = ⟨t.gid, t.name, t.assignee, t.memberships, t.custom_fields, true⟩) := by
  refine ⟨by simp [complete_tasks], ?_, rfl, rfl, rfl, rfl, fun t => rfl⟩
  intro i
  simp [complete_tasks, List.get?_map]

end SprintClose
